import Mathlib

/-!
Verification of the oradex DDL-extraction tool (Go) against its
natural-language specification.

The Go sources are shallowly embedded: the database is modelled as an
environment (`Db`) mapping each query to its result (`Except` for the
error channel), pure string post-processing is translated function by
function, and the two regular expressions of the source are implemented
as explicit scanners over `List Char` with the same leftmost/greedy
semantics.  `newLine` is modelled for the non-Windows branch of
`runtime.GOOS` (the platform the tool is analysed on), so the line
separator is `"\n"` throughout.
-/

namespace Oradex

/-- Object-type constant `typeDatabaseLink` from the source. -/
def typeDatabaseLink : String := "DATABASE LINK"

/-- Object-type constant `typeMaterializedView` from the source. -/
def typeMaterializedView : String := "MATERIALIZED VIEW"

/-- Object-type constant `typeTable` from the source. -/
def typeTable : String := "TABLE"

/-- Object-type constant `typeView` from the source. -/
def typeView : String := "VIEW"

/-- The whitespace cutset `"\n\r\t "` used by `trimString`, `trimLine` and
the character class `[\n\r\t ]` of the source's regular expressions. -/
def isWsChar (c : Char) : Bool :=
  c == '\n' || c == '\r' || c == '\t' || c == ' '

/-- Model of `newLine` from the source, on the non-Windows branch of `runtime.GOOS`. -/
def newLine : String := "\n"

/-- Model of `dblSpace` from the source: two new lines. -/
def dblSpace : String := newLine ++ newLine

/-- Right-trim of the cutset `"\n\r\t "` on a character list
(`strings.TrimRight(s, "\n\r\t ")`). -/
def trimLineL (l : List Char) : List Char :=
  (l.reverse.dropWhile isWsChar).reverse

/-- Model of `trimLine` from the source: removes trailing white-space. -/
def trimLine (s : String) : String := String.mk (trimLineL s.data)

/-- Model of `trimString` from the source: removes leading and trailing white-space
(`strings.Trim(s, "\n\r\t ")`). -/
def trimString (s : String) : String :=
  String.mk (trimLineL (s.data.dropWhile isWsChar))

/-- Model of `appendLine` from the source: appends a line to a slice after first
removing all trailing white-space.  Note: the line is appended even when
it is empty. -/
def appendLine (s : List String) (l : String) : List String :=
  s ++ [trimLine l]

/-- Model of `strings.Replace(s, "\r\n", "\n", -1)`: rewrite every CR-LF pair to LF,
scanning left to right. -/
def stripCR : List Char → List Char
  | [] => []
  | [c] => [c]
  | c1 :: c2 :: rest =>
    if c1 = '\r' ∧ c2 = '\n' then '\n' :: stripCR rest
    else c1 :: stripCR (c2 :: rest)

/-- Model of `strings.Split` on a single separator character: the segments between
occurrences of `sep` (an empty input yields one empty segment). -/
def splitCh (sep : Char) : List Char → List (List Char)
  | [] => [[]]
  | c :: rest =>
    let r := splitCh sep rest
    if c = sep then [] :: r
    else (c :: r.headD []) :: r.tail

/-- Model of `strings.Join` on character lists. -/
def joinWith (sep : List Char) : List (List Char) → List Char
  | [] => []
  | [x] => x
  | x :: xs => x ++ sep ++ joinWith sep xs

/-- Model of `splitLines` from the source, at list level: normalize CR-LF to LF,
then split on LF. -/
def splitLinesL (l : List Char) : List (List Char) :=
  splitCh '\n' (stripCR l)

/-- Model of `splitLines` from the source. -/
def splitLines (s : String) : List String :=
  (splitLinesL s.data).map String.mk

/-- Model of `strings.Join(l, dblSpace())`: fragments joined by the fixed blank-line
separator. -/
def joinFrags : List String → String
  | [] => ""
  | [x] => x
  | x :: xs => x ++ dblSpace ++ joinFrags xs

/-- Lexicographic comparison of character lists, matching Go's built-in
string ordering (UTF-8 byte order coincides with code-point order). -/
def lexLe : List Char → List Char → Bool
  | [], _ => true
  | _ :: _, [] => false
  | a :: as, b :: bs =>
    if a < b then true
    else if a = b then lexLe as bs
    else false

/-- Go string `<=`, used by `sort.Strings`. -/
def strLe (a b : String) : Bool := lexLe a.data b.data

/-- The ordering relation of `sort.Strings` as a proposition. -/
def StrLeR (a b : String) : Prop := strLe a b = true

instance : DecidableRel StrLeR := fun a b => by
  unfold StrLeR; infer_instance

/-- Model of `sort.Strings`: sorts a string slice lexicographically.  Modelled by
insertion sort; since the ordering is total, transitive and antisymmetric,
every correct sort produces this same list. -/
def sortStrings (l : List String) : List String :=
  l.insertionSort StrLeR

/-- Substring test for `"--"` (`regexp.MustCompile("--").FindString` returns
a non-empty match exactly when the line contains two adjacent dashes). -/
def containsDashDash : List Char → Bool
  | '-' :: '-' :: _ => true
  | _ :: rest => containsDashDash rest
  | [] => false

/-- One step of `regexp "[\n\r\t ]+/\n" -> "\n/\n"` replacement
(`ReplaceAllString`): leftmost match, greedy whitespace run, scanning with
explicit fuel (the wrapper supplies `length + 1`, which is always enough
since every step consumes at least one character). -/
def collapseGo : Nat → List Char → List Char
  | 0, l => l
  | Nat.succ _, [] => []
  | Nat.succ fuel, c :: rest =>
    if isWsChar c then
      match (c :: rest).dropWhile isWsChar with
      | '/' :: '\n' :: tail => '\n' :: '/' :: '\n' :: collapseGo fuel tail
      | _ => c :: collapseGo fuel rest
    else c :: collapseGo fuel rest

/-- Model of `regexp.MustCompile("[\n\r\t ]+/\n").ReplaceAllString(DDL, "\n/\n")`:
collapse the whitespace run before a PL/SQL block terminator line. -/
def collapseSlash (s : String) : String :=
  String.mk (collapseGo (s.data.length + 1) s.data)

/-- The literal `"ALTER "` required after the whitespace run by the split
pattern `[\n\r\t ]*ALTER `. -/
def alterKw : List Char := ['A', 'L', 'T', 'E', 'R', ' ']

/-- Scanner for `regexp.MustCompile("[\n\r\t ]*ALTER ").Split(s, -1)`:
at each position the greedy maximal whitespace run (possibly empty)
followed by the literal `ALTER ` is a separator; fragments between
separators are collected.  Fuel-driven; `length + 1` always suffices. -/
def splitAlterGo : Nat → List Char → List Char → List (List Char)
  | 0, acc, l => [acc.reverse ++ l]
  | Nat.succ _, acc, [] => [acc.reverse]
  | Nat.succ fuel, acc, c :: rest =>
    let rest' := (c :: rest).dropWhile isWsChar
    if alterKw.isPrefixOf rest' then
      acc.reverse :: splitAlterGo fuel [] (rest'.drop 6)
    else
      splitAlterGo fuel (c :: acc) rest

/-- The `ALTER ` boundary split of `exportTableView`. -/
def splitAlter (s : String) : List String :=
  (splitAlterGo (s.data.length + 1) [] s.data).map String.mk

/-- Lookahead for `[\n\r\t ][Oo][Nn][\n\r\t ]+`: one whitespace character,
`O`/`o`, `N`/`n`, then a greedy non-empty whitespace run.  Returns the text
after the match when the pattern matches at the head. -/
def onMatch : List Char → Option (List Char)
  | w :: o :: n :: w2 :: rest =>
    if isWsChar w ∧ (o = 'O' ∨ o = 'o') ∧ (n = 'N' ∨ n = 'n') ∧ isWsChar w2
    then some (rest.dropWhile isWsChar)
    else none
  | _ => none

/-- Model of `regexp.MustCompile("[\n\r\t ][Oo][Nn][\n\r\t ]+").Split(rslt, 2)`:
find the leftmost match of the `ON`-clause pattern and split there; `none`
when no match exists (the `len(s) > 1` test of the source is false). -/
def splitOnGo (acc : List Char) : List Char → Option (List Char × List Char)
  | [] => none
  | c :: rest =>
    match onMatch (c :: rest) with
    | some after => some (acc.reverse, after)
    | none => splitOnGo (c :: acc) rest

/-- Lines 242-252 of the trigger fetcher: locate the `ON` clause, inspect
the token following it, and prefix the owning schema in double quotes when
the token has no `.` qualifier.  The boolean is `len(s) > 1` (whether the
`ON` clause was found), which also gates the `ALTER TRIGGER` split. -/
def triggerOnFix (schema rslt : String) : String × Bool :=
  match splitOnGo [] rslt.data with
  | none => (rslt, false)
  | some (b, a) =>
    let tok := a.takeWhile (fun c => !(isWsChar c))
    if tok.contains '.' then (rslt, true)
    else (String.mk b ++ " ON \"" ++ schema ++ "\"." ++ String.mk a, true)

/-- The literal separator `"ALTER TRIGGER"` of `strings.Split`. -/
def trigKw : List Char :=
  ['A', 'L', 'T', 'E', 'R', ' ', 'T', 'R', 'I', 'G', 'G', 'E', 'R']

/-- Model of `strings.Split(rslt, "ALTER TRIGGER")`: fragments between the
non-overlapping leftmost occurrences of the literal separator.
Fuel-driven scanner; `length + 1` fuel always suffices. -/
def splitTrigGo : Nat → List Char → List Char → List (List Char)
  | 0, acc, l => [acc.reverse ++ l]
  | Nat.succ _, acc, [] => [acc.reverse]
  | Nat.succ fuel, acc, c :: rest =>
    if trigKw.isPrefixOf (c :: rest) then
      acc.reverse :: splitTrigGo fuel [] ((c :: rest).drop 13)
    else splitTrigGo fuel (c :: acc) rest

/-- Model of `strings.Split(rslt, "ALTER TRIGGER")` at the string level. -/
def splitAlterTrigger (s : String) : List String :=
  (splitTrigGo (s.data.length + 1) [] s.data).map String.mk

/-- The cutset `"\n\r\t /"` of the trigger fetcher's `strings.TrimRight`. -/
def isWsSlash (c : Char) : Bool := isWsChar c || c == '/'

/-- Model of `strings.TrimRight(s, "\n\r\t /")`. -/
def trimRightSlash (s : String) : String :=
  String.mk ((s.data.reverse.dropWhile isWsSlash).reverse)

/-- The database environment: the result of each query issued by the
fetchers, indexed by the bind arguments the source passes.  `Except` is
the error channel of `database/sql` (query or scan failure); `getDdl`
returns the optional single row of the `dbms_metadata.get_ddl` query. -/
structure Db where
  getDdl : String → String → String → Except String (Option String)
  triggerRows : String → String → Except String (List String)
  indexRows : String → String → Except String (List String)
  tabCommentRows : String → String → Except String (List String)
  mviewCommentRows : String → String → Except String (List String)
  colCommentRows : String → String → Except String (List String)
  grantedRows : String → String → Except String (List String)
  neededRows : String → String → Except String (List String)

/-- Model of `runQuery` from the source: each row is appended via `appendLine`
(right-trimmed) and the rows are joined with `dblSpace`; a query or scan
failure yields the error with an empty string result. -/
def runQueryRows (rows : Except String (List String)) : Except String String :=
  match rows with
  | .error e => .error e
  | .ok l => .ok (joinFrags (l.map trimLine))

/-- The `dbms_metadata` type-keyword translation at the top of `ObjDDL`. -/
def ddlTypeName (objType : String) : String :=
  if objType = typeDatabaseLink then "DB_LINK"
  else if objType = typeMaterializedView then "MATERIALIZED_VIEW"
  else objType

/-- The view/materialized-view fixup of `ObjDDL`: when the last line of the
DDL contains a comment marker, append a bare `;` terminator line. -/
def viewFixup (ddl : String) : String :=
  let s := splitLinesL ddl.data
  if containsDashDash (s.getLastD []) then
    String.mk (joinWith ['\n'] (s ++ [[';']]))
  else ddl

/-- Model of `ObjDDL` from the source: fetch the object DDL, trim it, then apply the
view terminator fixup (views/materialized views) or collapse the
whitespace run before block terminators (all other types).  No row yields
an empty string without error. -/
def ObjDDL (db : Db) (schema name objType : String) : Except String String :=
  match db.getDdl (ddlTypeName objType) name schema with
  | .error e => .error e
  | .ok none => .ok ""
  | .ok (some raw) =>
    let ddl := trimString raw
    if objType = typeView ∨ objType = typeMaterializedView then .ok (viewFixup ddl)
    else .ok (collapseSlash ddl)

/-- The per-row body of the `rows.Next()` loop in `ObjTriggers`: trim the
row, apply the `ON`-clause schema fixup, then split on `ALTER TRIGGER`.
When the `ON` clause was found (`len(s) > 1`), the first fragment is
right-trimmed of whitespace/terminators and given a block terminator,
and each later fragment is re-prefixed with `ALTER TRIGGER` and
right-trimmed; otherwise the whole row becomes a single fragment with one
terminator. -/
def processTriggerRow (schema row : String) : List String :=
  let rslt := trimString row
  let fx := triggerOnFix schema rslt
  let v := splitAlterTrigger fx.1
  if fx.2 then
    (trimRightSlash (v.headD "") ++ newLine ++ "/") ::
      (v.drop 1).map (fun x => "ALTER TRIGGER" ++ trimRightSlash x)
  else
    [trimRightSlash fx.1 ++ newLine ++ "/"]

/-- Model of `ObjTriggers` from the source: one fragment list per trigger row,
joined with `dblSpace`.  The `quiet` flag only controls logging and the
unused `objType` argument is dropped. -/
def ObjTriggers (db : Db) (schema name : String) : Except String String :=
  match db.triggerRows schema name with
  | .error e => .error e
  | .ok rows => .ok (joinFrags ((rows.map (processTriggerRow schema)).flatten))

/-- Model of `ObjIndices` from the source (queries.go): a `runQuery` facet. -/
def ObjIndices (db : Db) (schema name objType : String) : Except String String :=
  runQueryRows (db.indexRows schema name)

/-- Model of `TableComments` from the source (queries.go). -/
def TableComments (db : Db) (schema name objType : String) : Except String String :=
  runQueryRows (db.tabCommentRows schema name)

/-- Model of `MViewComments` from the source (queries.go). -/
def MViewComments (db : Db) (schema name objType : String) : Except String String :=
  runQueryRows (db.mviewCommentRows schema name)

/-- Model of `ObjComments` from the source (queries.go): materialized views use the
materialized-view comment query, everything else the table/view one. -/
def ObjComments (db : Db) (schema name objType : String) : Except String String :=
  if objType = typeMaterializedView then MViewComments db schema name objType
  else TableComments db schema name objType

/-- Model of `ColComments` from the source (queries.go). -/
def ColComments (db : Db) (schema name objType : String) : Except String String :=
  runQueryRows (db.colCommentRows schema name)

/-- Model of `ObjGrantedPrivs` from the source (queries.go). -/
def ObjGrantedPrivs (db : Db) (schema name objType : String) : Except String String :=
  runQueryRows (db.grantedRows schema name)

/-- Model of `ObjNeededPrivs` from the source (queries.go). -/
def ObjNeededPrivs (db : Db) (schema name objType : String) : Except String String :=
  runQueryRows (db.neededRows schema name)

/-- The string a facet call contributes: the Go functions return `""`
together with a non-nil error on failure. -/
def exVal : Except String String → String
  | .ok v => v
  | .error _ => ""

/-- The `err` value after a facet call: `nil` on success. -/
def errOf : Except String String → Option String
  | .ok _ => none
  | .error e => some e

/-- The fragment list `l` built by `exportTableView`: split CREATE segment,
indexes (tables and materialized views), sorted `ALTER` fragments
re-prefixed with `ALTER `, object comments, column comments, triggers.
Facet failures are logged (`carp`) and contribute the facet's empty
result. -/
def tvFrags (db : Db) (schema name objType t : String) : List String :=
  let s := splitAlter t
  let l := appendLine [] (s.headD "")
  let l :=
    if objType = typeTable ∨ objType = typeMaterializedView then
      appendLine l (exVal (ObjIndices db schema name objType))
    else l
  let l :=
    if 1 < s.length then
      (sortStrings (s.drop 1)).foldl (fun acc cmd => appendLine acc ("ALTER " ++ cmd)) l
    else l
  let l := appendLine l (exVal (ObjComments db schema name objType))
  let l := appendLine l (exVal (ColComments db schema name objType))
  appendLine l (exVal (ObjTriggers db schema name))

/-- Model of `exportTableView` from the source.  The primary `ObjDDL` failure
returns the error immediately; otherwise the fragments are joined with
`dblSpace`.  The returned error is the `err` variable at `return`, which
holds the result of the last facet call - the trigger fetch. -/
def exportTableView (db : Db) (schema name objType : String) : String × Option String :=
  match ObjDDL db schema name objType with
  | .error e => ("", some e)
  | .ok t =>
    (joinFrags (tvFrags db schema name objType t), errOf (ObjTriggers db schema name))

/-- Model of `ExportDDL` from the source: tables/views/materialized views go
through `exportTableView`, everything else fetches `ObjDDL` directly;
a non-nil error from that step returns `("", err)`.  Needed grants are
prepended and granted privileges appended when requested, and the
function returns the final `err` variable: the granted-privileges error
if requested, else the needed-grants error if requested, else `nil`. -/
def ExportDDL (db : Db) (schema name objType : String)
    (neededGrants objectGrants : Bool) : String × Option String :=
  let step1 :=
    if objType = typeTable ∨ objType = typeView ∨ objType = typeMaterializedView then
      exportTableView db schema name objType
    else
      let r := ObjDDL db schema name objType
      (exVal r, errOf r)
  match step1.2 with
  | some e => ("", some e)
  | none =>
    let start :=
      if neededGrants then
        let r := ObjNeededPrivs db schema name objType
        (appendLine [] (exVal r), errOf r)
      else (([] : List String), (none : Option String))
    let l := appendLine start.1 step1.1
    let fin :=
      if objectGrants then
        let r := ObjGrantedPrivs db schema name objType
        (appendLine l (exVal r), errOf r)
      else (l, start.2)
    (joinFrags fin.1, fin.2)

/-- The fixed `owner NOT IN (...)` vendor-schema exclusion list of the
`getSchemaList` query. -/
def vendorSchemas : List String :=
  ["APPQOSSYS", "AUDSYS", "CTXSYS", "DBSFWUSER", "DBSNMP", "DMSYS", "EXFSYS",
   "GSMADMIN_INTERNAL", "MDSYS", "OJVMSYS", "OLAPSYS", "ORACLE_OCM", "ORDSYS",
   "OUTLN", "PERFSTAT", "REMOTE_SCHEDULER_AGENT", "SQLTXPLAIN", "SYS",
   "SYSMAN", "SYSTEM", "TSMSYS", "WMSYS", "XDB"]

/-- The `object_type IN (...)` list of the `getSchemaList` query. -/
def extractObjectTypes : List String :=
  ["DATABASE LINK", "FUNCTION", "MATERIALIZED VIEW", "PACKAGE", "PROCEDURE",
   "SEQUENCE", "TABLE", "TYPE", "VIEW"]

/-- The `SELECT DISTINCT owner FROM dba_objects WHERE ...` query of
`getSchemaList`, modelled over `dba_objects` as a list of
`(owner, object_type)` rows: owners of rows passing the fixed vendor
exclusion and object-type filters, made distinct. -/
def schemaListQuery (dbaObjects : List (String × String)) : List String :=
  ((dbaObjects.filter fun p =>
      decide (p.1 ∉ vendorSchemas ∧ p.2 ∈ extractObjectTypes)).map Prod.fst).dedup

/-- Model of `csvSplit` from the source: splits a comma-separated list.  The Go
code builds a map used only for key-membership tests, so the model keeps
the list of segments. -/
def csvSplit (s : String) : List String :=
  (splitCh ',' s.data).map String.mk

/-- The row loop of `getSchemaList`: an allow-list (when non-empty)
retains only listed schemas, otherwise a deny-list (when non-empty)
removes listed schemas, otherwise every returned schema is kept. -/
def getSchemaList (rows : List String) (schemas xclude : String) : List String :=
  rows.filter fun schema =>
    if schemas ≠ "" then decide (schema ∈ csvSplit schemas)
    else if xclude ≠ "" then decide (schema ∉ csvSplit xclude)
    else true

/-- The per-segment normalization of `splitObjName`: segments containing a
double quote get every quote removed with case preserved, other segments
are upper-cased (`strings.ToUpper`; the model's `String.toUpper` agrees on
the ASCII identifiers at issue). -/
def normSeg (seg : String) : String :=
  if seg.contains '"' then String.mk (seg.data.filter fun c => !(c == '"'))
  else seg.toUpper

/-- Model of `splitObjName` from the source: split on `.`, normalize each segment,
then one segment is a bare name, two are schema and name, and anything
else leaves both results empty. -/
def splitObjName (objectName : String) : String × String :=
  match (splitCh '.' objectName.data).map (fun l => normSeg (String.mk l)) with
  | [n] => ("", n)
  | [s, n] => (s, n)
  | _ => ("", "")

/-- A database on which every query succeeds and returns nothing. -/
def emptyDb : Db :=
  { getDdl := fun _ _ _ => .ok none
  , triggerRows := fun _ _ => .ok []
  , indexRows := fun _ _ => .ok []
  , tabCommentRows := fun _ _ => .ok []
  , mviewCommentRows := fun _ _ => .ok []
  , colCommentRows := fun _ _ => .ok []
  , grantedRows := fun _ _ => .ok []
  , neededRows := fun _ _ => .ok [] }

/-- Environment for the trigger-failure run: the primary table DDL fetch
succeeds, every facet succeeds empty, but the trigger query fails. -/
def dbTrigFail : Db :=
  { emptyDb with
    getDdl := fun _ _ _ => .ok (some "CREATE TABLE T1 (X NUMBER)")
  , triggerRows := fun _ _ => .error "trigger query failed" }

/-- C1: the primary object-DDL fetch of table `T1` succeeds, and only the
trigger facet fails; yet `ExportDDL` returns `("", err)` - the assembly is
aborted exactly as for a primary-fetch failure, because the trigger
error is the last value of `err` in `exportTableView` and `ExportDDL`
treats any error from that call as fatal.  This contradicts the stated
failure policy that only the primary fetch failure aborts assembly. -/
theorem exportDDL_trigger_failure_aborts :
    ObjDDL dbTrigFail "HR" "T1" "TABLE" = .ok "CREATE TABLE T1 (X NUMBER)" ∧
    ExportDDL dbTrigFail "HR" "T1" "TABLE" false false =
      ("", some "trigger query failed") := by
  constructor <;> rfl

/-- C7: with `includeNeededGrants = false` and `includeGrants = false`,
the assembled output is independent of the privilege queries: two
environments that agree on every query except the granted-privileges and
needed-privileges ones produce identical results. -/
theorem exportDDL_priv_independent (db₁ db₂ : Db) (schema name objType : String)
    (hg : db₁.getDdl = db₂.getDdl)
    (ht : db₁.triggerRows = db₂.triggerRows)
    (hi : db₁.indexRows = db₂.indexRows)
    (htc : db₁.tabCommentRows = db₂.tabCommentRows)
    (hmc : db₁.mviewCommentRows = db₂.mviewCommentRows)
    (hcc : db₁.colCommentRows = db₂.colCommentRows) :
    ExportDDL db₁ schema name objType false false =
      ExportDDL db₂ schema name objType false false := by
  cases db₁
  cases db₂
  simp only at hg ht hi htc hmc hcc
  subst hg ht hi htc hmc hcc
  rfl

/-- A second environment differing from `dbTrigFail`-style data only in
the privilege queries. -/
def dbPrivA : Db :=
  { emptyDb with getDdl := fun _ _ _ => .ok (some "CREATE TABLE T2 (X NUMBER)") }

/-- Same as `dbPrivA` except both privilege queries answer differently. -/
def dbPrivB : Db :=
  { dbPrivA with
    grantedRows := fun _ _ => .ok ["GRANT SELECT ON T2 TO U"]
  , neededRows := fun _ _ => .error "no privs" }

theorem exportDDL_priv_independent_witness :
    (dbPrivA.getDdl = dbPrivB.getDdl ∧ dbPrivA.triggerRows = dbPrivB.triggerRows ∧
      dbPrivA.indexRows = dbPrivB.indexRows ∧
      dbPrivA.tabCommentRows = dbPrivB.tabCommentRows ∧
      dbPrivA.mviewCommentRows = dbPrivB.mviewCommentRows ∧
      dbPrivA.colCommentRows = dbPrivB.colCommentRows) ∧
    (dbPrivA.neededRows "HR" "T2" = .ok [] ∧
      dbPrivB.neededRows "HR" "T2" = .error "no privs") ∧
    ExportDDL dbPrivA "HR" "T2" "TABLE" false false =
      ExportDDL dbPrivB "HR" "T2" "TABLE" false false :=
  ⟨⟨rfl, rfl, rfl, rfl, rfl, rfl⟩, ⟨rfl, rfl⟩,
    exportDDL_priv_independent dbPrivA dbPrivB "HR" "T2" "TABLE"
      rfl rfl rfl rfl rfl rfl⟩

/-- C9: every schema produced by `getSchemaList` comes from the catalogue
query, whose fixed `WHERE` clause excludes the vendor-internal schemas;
the allow-list/deny-list filtering can only remove entries, so no vendor
schema can appear even when named in the allow-list. -/
theorem getSchemaList_vendor_free (objs : List (String × String))
    (schemas xclude v : String)
    (h : v ∈ getSchemaList (schemaListQuery objs) schemas xclude) :
    v ∉ vendorSchemas ∧ v ∈ schemaListQuery objs := by
  have hv : v ∈ schemaListQuery objs := List.mem_of_mem_filter h
  refine ⟨?_, hv⟩
  unfold schemaListQuery at hv
  obtain ⟨p, hp, hpv⟩ := List.mem_map.mp (List.mem_dedup.mp hv)
  have h2 := of_decide_eq_true (List.mem_filter.mp hp).2
  exact hpv ▸ h2.1

/-- Concrete catalogue with a vendor-owned and a user-owned object. -/
def objsW : List (String × String) := [("SYS", "TABLE"), ("HR", "TABLE")]

theorem getSchemaList_vendor_free_witness :
    ("HR" ∈ getSchemaList (schemaListQuery objsW) "SYS,HR" "" ∧
      ("HR" ∉ vendorSchemas ∧ "HR" ∈ schemaListQuery objsW)) ∧
    "SYS" ∉ getSchemaList (schemaListQuery objsW) "SYS,HR" "" :=
  ⟨⟨by decide, getSchemaList_vendor_free objsW "SYS,HR" "" "HR" (by decide)⟩,
    by decide⟩

/-- C10: `splitObjName` yields `("", "")` for three or more dot-separated
segments, `("", NAME)` for one and `(SCHEMA, NAME)` for two, where each
segment is upper-cased when unquoted and has its quotes stripped with
case preserved when quoted. -/
theorem splitObjName_spec (s : String) :
    (3 ≤ (splitCh '.' s.data).length → splitObjName s = ("", "")) ∧
    (∀ a, splitCh '.' s.data = [a] →
      splitObjName s = ("", normSeg (String.mk a))) ∧
    (∀ a b, splitCh '.' s.data = [a, b] →
      splitObjName s = (normSeg (String.mk a), normSeg (String.mk b))) ∧
    ∀ seg : String,
      (seg.contains '"' = true →
        normSeg seg = String.mk (seg.data.filter fun c => !(c == '"'))) ∧
      (seg.contains '"' = false → normSeg seg = seg.toUpper) := by
  refine ⟨?_, ?_, ?_, ?_⟩
  · intro h
    rcases h1 : splitCh '.' s.data with _ | ⟨a, _ | ⟨b, _ | ⟨c, t⟩⟩⟩ <;>
      rw [h1] at h <;> simp at h <;> simp [splitObjName, h1]
  · intro a ha
    simp [splitObjName, ha]
  · intro a b hab
    simp [splitObjName, hab]
  · intro seg
    constructor <;> intro h <;> simp [normSeg, h]

theorem splitObjName_spec_witness :
    3 ≤ (splitCh '.' ("a.b.c" : String).data).length ∧
    splitObjName "a.b.c" = ("", "") :=
  ⟨by decide, (splitObjName_spec "a.b.c").1 (by decide)⟩

theorem lexLe_total : ∀ a b : List Char, lexLe a b = true ∨ lexLe b a = true
  | [], _ => Or.inl rfl
  | _ :: _, [] => Or.inr rfl
  | a :: as, b :: bs => by
    rcases lt_trichotomy a b with h | h | h
    · left; simp [lexLe, h]
    · subst h
      rcases lexLe_total as bs with ih | ih
      · left; simp [lexLe, lt_irrefl, ih]
      · right; simp [lexLe, lt_irrefl, ih]
    · right; simp [lexLe, h]

theorem lexLe_trans :
    ∀ a b c : List Char, lexLe a b = true → lexLe b c = true → lexLe a c = true
  | [], _, _, _, _ => rfl
  | _ :: _, [], _, hab, _ => by simp [lexLe] at hab
  | _ :: _, _ :: _, [], _, hbc => by simp [lexLe] at hbc
  | a :: as, b :: bs, c :: cs, hab, hbc => by
    simp only [lexLe] at hab hbc ⊢
    by_cases h1 : a < b
    · by_cases h2 : b < c
      · simp [lt_trans h1 h2]
      · by_cases h3 : b = c
        · subst h3; simp [h1]
        · simp [h2, h3] at hbc
    · by_cases h4 : a = b
      · subst h4
        by_cases h2 : a < c
        · simp [h2]
        · by_cases h3 : a = c
          · subst h3
            simp [lt_irrefl] at hab hbc ⊢
            exact lexLe_trans as bs cs hab hbc
          · simp [h2, h3] at hbc
      · simp [h1, h4] at hab

instance : IsTotal String StrLeR :=
  ⟨fun a b => lexLe_total a.data b.data⟩

instance : IsTrans String StrLeR :=
  ⟨fun a b c hab hbc => lexLe_trans a.data b.data c.data hab hbc⟩

theorem sortStrings_sorted (l : List String) :
    List.Sorted StrLeR (sortStrings l) :=
  List.sorted_insertionSort StrLeR l

theorem sortStrings_perm (l : List String) : (sortStrings l).Perm l :=
  List.perm_insertionSort StrLeR l

theorem foldl_appendLine (xs l : List String) :
    xs.foldl (fun acc cmd => acc ++ [trimLine ("ALTER " ++ cmd)]) l =
      l ++ xs.map fun cmd => trimLine ("ALTER " ++ cmd) := by
  induction xs generalizing l with
  | nil => simp
  | cons x xs ih =>
    rw [List.foldl_cons, ih]
    simp

/-- Structure of the fragment list built by `exportTableView` once the
fetched DDL's `ALTER` split is known. -/
theorem tvFrags_eq (db : Db) (schema name objType t c : String)
    (alters : List String) (hs : splitAlter t = c :: alters) :
    tvFrags db schema name objType t =
      [trimLine c] ++
      (if objType = typeTable ∨ objType = typeMaterializedView then
        [trimLine (exVal (ObjIndices db schema name objType))] else []) ++
      (if alters = [] then [] else
        (sortStrings alters).map fun cmd => trimLine ("ALTER " ++ cmd)) ++
      [trimLine (exVal (ObjComments db schema name objType)),
       trimLine (exVal (ColComments db schema name objType)),
       trimLine (exVal (ObjTriggers db schema name))] := by
  by_cases hidx : objType = typeTable ∨ objType = typeMaterializedView <;>
    by_cases halt : alters = [] <;>
      simp [tvFrags, hs, hidx, halt, appendLine, foldl_appendLine,
        Nat.succ_lt_succ_iff, List.length_pos]

/-- C2: whenever the fetched object DDL splits at the `ALTER ` boundary
into a CREATE segment and a non-empty list of `ALTER` fragments, the
assembler emits exactly the lexicographically sorted permutation of those
fragments, each re-prefixed with the literal `ALTER `. -/
theorem exportTableView_sorted_alters (db : Db) (schema name objType t c : String)
    (alters : List String)
    (hddl : ObjDDL db schema name objType = .ok t)
    (hs : splitAlter t = c :: alters) (hne : alters ≠ []) :
    List.Sorted StrLeR (sortStrings alters) ∧
    (sortStrings alters).Perm alters ∧
    ∃ pre post,
      (exportTableView db schema name objType).1 =
        joinFrags (pre ++
          ((sortStrings alters).map fun cmd => trimLine ("ALTER " ++ cmd)) ++
          post) := by
  refine ⟨sortStrings_sorted _, sortStrings_perm _, ?_⟩
  refine ⟨[trimLine c] ++
    (if objType = typeTable ∨ objType = typeMaterializedView then
      [trimLine (exVal (ObjIndices db schema name objType))] else []),
    [trimLine (exVal (ObjComments db schema name objType)),
     trimLine (exVal (ColComments db schema name objType)),
     trimLine (exVal (ObjTriggers db schema name))], ?_⟩
  simp [exportTableView, hddl, tvFrags_eq db schema name objType t c alters hs, hne]

/-- Environment whose table DDL carries two `ALTER` fragments out of
order. -/
def dbAlters : Db :=
  { emptyDb with
    getDdl := fun _ _ _ => .ok (some "CREATE TABLE T\nALTER Z\nALTER A") }

theorem exportTableView_sorted_alters_witness :
    (ObjDDL dbAlters "HR" "T" "TABLE" = .ok "CREATE TABLE T\nALTER Z\nALTER A" ∧
      splitAlter "CREATE TABLE T\nALTER Z\nALTER A" = "CREATE TABLE T" :: ["Z", "A"] ∧
      (["Z", "A"] : List String) ≠ []) ∧
    (List.Sorted StrLeR (sortStrings ["Z", "A"]) ∧
      (sortStrings ["Z", "A"]).Perm ["Z", "A"] ∧
      ∃ pre post,
        (exportTableView dbAlters "HR" "T" "TABLE").1 =
          joinFrags (pre ++
            ((sortStrings ["Z", "A"]).map fun cmd => trimLine ("ALTER " ++ cmd)) ++
            post)) :=
  ⟨⟨rfl, by decide, by decide⟩,
    exportTableView_sorted_alters dbAlters "HR" "T" "TABLE"
      "CREATE TABLE T\nALTER Z\nALTER A" "CREATE TABLE T" ["Z", "A"]
      rfl (by decide) (by decide)⟩

theorem splitCh_ne_nil (sep : Char) : ∀ l, splitCh sep l ≠ []
  | [] => by simp [splitCh]
  | c :: rest => by
    simp only [splitCh]
    by_cases h : c = sep <;> simp [h]

theorem joinWith_cons_cons (sep y w : List Char) (ws : List (List Char)) :
    joinWith sep (y :: w :: ws) = y ++ sep ++ joinWith sep (w :: ws) := rfl

theorem joinWith_concat (sep x : List Char) :
    ∀ L, L ≠ [] → joinWith sep (L ++ [x]) = joinWith sep L ++ sep ++ x
  | [], h => absurd rfl h
  | [y], _ => by simp [joinWith]
  | y :: z :: t, _ => by
    have ih := joinWith_concat sep x (z :: t) (by simp)
    have e1 : (y :: z :: t) ++ [x] = y :: ((z :: t) ++ [x]) := rfl
    have e2 : (z :: t) ++ [x] = z :: (t ++ [x]) := rfl
    rw [e1, e2, joinWith_cons_cons, ← e2, ih, joinWith_cons_cons]
    simp [List.append_assoc]

/-- After any prefix, a text ending in a lone `\n` followed by `;` splits
(after CR-LF normalization) into lines whose last line is `;`. -/
theorem lastSeg : ∀ m : List Char,
    ∃ L, splitCh '\n' (stripCR (m ++ ['\n', ';'])) = L ++ [[';']] ∧ L ≠ []
  | [] => ⟨[[]], by decide, by decide⟩
  | [c] => by
    by_cases hc : c = '\r'
    · subst hc; exact ⟨[[]], by decide, by decide⟩
    · by_cases hn : c = '\n'
      · subst hn; exact ⟨[[], []], by decide, by decide⟩
      · refine ⟨[[c]], ?_, by simp⟩
        have h1 : stripCR ([c] ++ ['\n', ';']) = c :: stripCR ['\n', ';'] := by
          simp [stripCR, hc]
        have h2 : stripCR (['\n', ';'] : List Char) = ['\n', ';'] := by decide
        rw [h1, h2]
        simp [splitCh, hn]
  | c1 :: c2 :: t => by
    by_cases h : c1 = '\r' ∧ c2 = '\n'
    · obtain ⟨L, hL, hne⟩ := lastSeg t
      refine ⟨[] :: L, ?_, by simp⟩
      have hstr : stripCR ((c1 :: c2 :: t) ++ ['\n', ';']) =
          '\n' :: stripCR (t ++ ['\n', ';']) := by
        show (if c1 = '\r' ∧ c2 = '\n' then '\n' :: stripCR (t ++ ['\n', ';'])
          else c1 :: stripCR (c2 :: (t ++ ['\n', ';']))) = _
        rw [if_pos h]
      rw [hstr]
      show [] :: splitCh '\n' (stripCR (t ++ ['\n', ';'])) = ([] :: L) ++ [[';']]
      rw [hL]
      rfl
    · obtain ⟨L, hL, hne⟩ := lastSeg (c2 :: t)
      have hstr : stripCR ((c1 :: c2 :: t) ++ ['\n', ';']) =
          c1 :: stripCR ((c2 :: t) ++ ['\n', ';']) := by
        show (if c1 = '\r' ∧ c2 = '\n' then '\n' :: stripCR (t ++ ['\n', ';'])
          else c1 :: stripCR (c2 :: (t ++ ['\n', ';']))) = _
        rw [if_neg h]
        rfl
      obtain ⟨l0, ls, rfl⟩ := List.exists_cons_of_ne_nil hne
      by_cases hn : c1 = '\n'
      · subst hn
        refine ⟨[] :: l0 :: ls, ?_, by simp⟩
        rw [hstr]
        show [] :: splitCh '\n' (stripCR ((c2 :: t) ++ ['\n', ';'])) =
          ([] :: l0 :: ls) ++ [[';']]
        rw [hL]
        rfl
      · refine ⟨(c1 :: l0) :: ls, ?_, by simp⟩
        rw [hstr]
        show (if c1 = '\n' then
            [] :: splitCh '\n' (stripCR ((c2 :: t) ++ ['\n', ';']))
          else
            (c1 :: (splitCh '\n' (stripCR ((c2 :: t) ++ ['\n', ';']))).headD []) ::
              (splitCh '\n' (stripCR ((c2 :: t) ++ ['\n', ';']))).tail) =
          ((c1 :: l0) :: ls) ++ [[';']]
        rw [if_neg hn, hL]
        rfl
termination_by m => m.length

/-- When the last line carries no comment marker, the fixup is the
identity. -/
theorem viewFixup_eq_self (e : String)
    (he : containsDashDash ((splitLinesL e.data).getLastD []) = false) :
    viewFixup e = e := by
  show (if containsDashDash ((splitLinesL e.data).getLastD []) = true then
    String.mk (joinWith ['\n'] (splitLinesL e.data ++ [[';']])) else e) = e
  rw [he]
  rfl

/-- The view terminator fixup is idempotent: the appended `;` line never
contains the comment marker, so a second pass changes nothing. -/
theorem viewFixup_idem (d : String) : viewFixup (viewFixup d) = viewFixup d := by
  by_cases hc : containsDashDash ((splitLinesL d.data).getLastD []) = true
  · have hres : viewFixup d =
        String.mk (joinWith ['\n'] (splitLinesL d.data ++ [[';']])) := by
      unfold viewFixup
      rw [if_pos hc]
    have hsne : splitLinesL d.data ≠ [] := splitCh_ne_nil _ _
    have hjoin : joinWith ['\n'] (splitLinesL d.data ++ [[';']]) =
        joinWith ['\n'] (splitLinesL d.data) ++ ['\n', ';'] := by
      rw [joinWith_concat _ _ _ hsne]
      simp
    obtain ⟨L, hL, hLne⟩ := lastSeg (joinWith ['\n'] (splitLinesL d.data))
    refine viewFixup_eq_self _ ?_
    rw [hres]
    show containsDashDash ((splitCh '\n'
      (stripCR (joinWith ['\n'] (splitLinesL d.data ++ [[';']])))).getLastD []) = false
    rw [hjoin, hL]
    rw [List.getLastD_concat]
    rfl
  · have h0 : viewFixup d = d :=
      viewFixup_eq_self d (by simpa using hc)
    rw [h0, h0]

/-- C3: for a view (or materialized view) whose fetched DDL's last line
contains the comment marker, `ObjDDL` returns the fixed-up text, that text
ends with a newline followed by the bare terminator `;`, and the fixup is
idempotent. -/
theorem objDDL_view_terminator (db : Db) (schema name objType raw : String)
    (hty : objType = typeView ∨ objType = typeMaterializedView)
    (hrow : db.getDdl (ddlTypeName objType) name schema = .ok (some raw))
    (hcmt : containsDashDash ((splitLinesL (trimString raw).data).getLastD []) = true) :
    ObjDDL db schema name objType = .ok (viewFixup (trimString raw)) ∧
    (∃ ys, (viewFixup (trimString raw)).data = ys ++ ['\n', ';']) ∧
    ∀ d : String, viewFixup (viewFixup d) = viewFixup d := by
  refine ⟨?_, ?_, fun d => viewFixup_idem d⟩
  · unfold ObjDDL
    rw [hrow]
    simp [hty]
  · refine ⟨joinWith ['\n'] (splitLinesL (trimString raw).data), ?_⟩
    have hsne : splitLinesL (trimString raw).data ≠ [] := splitCh_ne_nil _ _
    unfold viewFixup
    rw [if_pos hcmt]
    show joinWith ['\n'] (splitLinesL (trimString raw).data ++ [[';']]) = _
    rw [joinWith_concat _ _ _ hsne]
    simp

/-- Environment returning a view DDL whose last line is a comment. -/
def dbView : Db :=
  { emptyDb with
    getDdl := fun _ _ _ => .ok (some "CREATE VIEW V AS SELECT 1\n-- note") }

theorem objDDL_view_terminator_witness :
    (("VIEW" : String) = typeView ∨ ("VIEW" : String) = typeMaterializedView) ∧
    dbView.getDdl (ddlTypeName "VIEW") "V" "HR" =
      .ok (some "CREATE VIEW V AS SELECT 1\n-- note") ∧
    containsDashDash
      ((splitLinesL (trimString "CREATE VIEW V AS SELECT 1\n-- note").data).getLastD [])
      = true ∧
    (ObjDDL dbView "HR" "V" "VIEW" =
        .ok (viewFixup (trimString "CREATE VIEW V AS SELECT 1\n-- note")) ∧
      (∃ ys, (viewFixup (trimString "CREATE VIEW V AS SELECT 1\n-- note")).data =
        ys ++ ['\n', ';']) ∧
      ∀ d : String, viewFixup (viewFixup d) = viewFixup d) :=
  ⟨Or.inl rfl, rfl, by decide,
    objDDL_view_terminator dbView "HR" "V" "VIEW"
      "CREATE VIEW V AS SELECT 1\n-- note" (Or.inl rfl) rfl (by decide)⟩

/-- Soundness of the `ON`-clause scanner: a successful split decomposes
the input into the prefix, a whitespace character, `O`/`o`, `N`/`n`, a
whitespace character, a (possibly empty) further whitespace run, and the
remainder. -/
theorem splitOnGo_sound : ∀ (l acc b a : List Char),
    splitOnGo acc l = some (b, a) →
    ∃ pre w o n w2 run,
      b = acc.reverse ++ pre ∧
      l = pre ++ w :: o :: n :: w2 :: (run ++ a) ∧
      isWsChar w = true ∧ (o = 'O' ∨ o = 'o') ∧ (n = 'N' ∨ n = 'n') ∧
      isWsChar w2 = true ∧ ∀ c ∈ run, isWsChar c = true
  | [], acc, b, a, h => by simp [splitOnGo] at h
  | c :: rest, acc, b, a, h => by
    rw [splitOnGo] at h
    cases hm : onMatch (c :: rest) with
    | some after =>
      rw [hm] at h
      obtain ⟨hb, ha⟩ : acc.reverse = b ∧ after = a := by
        simpa using h
      rcases rest with _ | ⟨o', _ | ⟨n', _ | ⟨w2', rest2⟩⟩⟩
      · exact absurd hm (by simp [onMatch])
      · exact absurd hm (by simp [onMatch])
      · exact absurd hm (by simp [onMatch])
      · simp only [onMatch] at hm
        by_cases hcond : isWsChar c = true ∧ (o' = 'O' ∨ o' = 'o') ∧
            (n' = 'N' ∨ n' = 'n') ∧ isWsChar w2' = true
        · rw [if_pos hcond] at hm
          obtain hrest2 : rest2.dropWhile isWsChar = after := by simpa using hm
          refine ⟨[], c, o', n', w2', rest2.takeWhile isWsChar, by simpa using hb.symm,
            ?_, hcond.1, hcond.2.1, hcond.2.2.1, hcond.2.2.2, ?_⟩
          · rw [← ha, ← hrest2]
            simp [List.takeWhile_append_dropWhile]
          · intro x hx
            exact List.mem_takeWhile_imp hx
        · rw [if_neg hcond] at hm
          exact absurd hm (by simp)
    | none =>
      rw [hm] at h
      obtain ⟨pre', w, o, n, w2, run, hb, hl, hw, ho, hn, hw2, hrun⟩ :=
        splitOnGo_sound rest (c :: acc) b a h
      refine ⟨c :: pre', w, o, n, w2, run, ?_, by simp [hl], hw, ho, hn, hw2, hrun⟩
      rw [hb]
      simp

/-- C4: when the trigger fetcher locates the `ON` clause, the input text
decomposes around the matched `ON` keyword; if the token following the
clause carries no `.` qualifier the text is rewritten with the owning
schema prefixed in double quotes, and otherwise it is left unchanged. -/
theorem triggerOnFix_spec (schema rslt : String) (b a : List Char)
    (h : splitOnGo [] rslt.data = some (b, a)) :
    (∃ w o n w2 run,
      rslt.data = b ++ w :: o :: n :: w2 :: (run ++ a) ∧
      isWsChar w = true ∧ (o = 'O' ∨ o = 'o') ∧ (n = 'N' ∨ n = 'n') ∧
      isWsChar w2 = true ∧ ∀ c ∈ run, isWsChar c = true) ∧
    ((a.takeWhile fun c => !(isWsChar c)).contains '.' = false →
      triggerOnFix schema rslt =
        (String.mk b ++ " ON \"" ++ schema ++ "\"." ++ String.mk a, true)) ∧
    ((a.takeWhile fun c => !(isWsChar c)).contains '.' = true →
      triggerOnFix schema rslt = (rslt, true)) := by
  refine ⟨?_, ?_, ?_⟩
  · obtain ⟨pre, w, o, n, w2, run, hb, hl, hw, ho, hn, hw2, hrun⟩ :=
      splitOnGo_sound rslt.data [] b a h
    exact ⟨w, o, n, w2, run, by rw [hl, hb]; simp, hw, ho, hn, hw2, hrun⟩
  · intro hdot
    unfold triggerOnFix
    rw [h]
    show (if (a.takeWhile fun c => !(isWsChar c)).contains '.' = true then (rslt, true)
      else (String.mk b ++ " ON \"" ++ schema ++ "\"." ++ String.mk a, true)) = _
    rw [hdot]
    simp
  · intro hdot
    unfold triggerOnFix
    rw [h]
    show (if (a.takeWhile fun c => !(isWsChar c)).contains '.' = true then (rslt, true)
      else (String.mk b ++ " ON \"" ++ schema ++ "\"." ++ String.mk a, true)) = _
    rw [hdot]
    simp

theorem triggerOnFix_spec_witness :
    splitOnGo []
        ("CREATE TRIGGER T1 BEFORE INSERT ON EMPLOYEES BEGIN NULL; END;" : String).data =
      some (("CREATE TRIGGER T1 BEFORE INSERT" : String).data,
        ("EMPLOYEES BEGIN NULL; END;" : String).data) ∧
    ((("EMPLOYEES BEGIN NULL; END;" : String).data.takeWhile
        fun c => !(isWsChar c)).contains '.' = false →
      triggerOnFix "HR" "CREATE TRIGGER T1 BEFORE INSERT ON EMPLOYEES BEGIN NULL; END;" =
        (String.mk ("CREATE TRIGGER T1 BEFORE INSERT" : String).data ++ " ON \"" ++ "HR" ++
          "\"." ++ String.mk ("EMPLOYEES BEGIN NULL; END;" : String).data, true)) ∧
    triggerOnFix "HR" "CREATE TRIGGER T1 BEFORE INSERT ON EMPLOYEES BEGIN NULL; END;" =
      ("CREATE TRIGGER T1 BEFORE INSERT ON \"HR\".EMPLOYEES BEGIN NULL; END;", true) :=
  ⟨by decide,
    (triggerOnFix_spec "HR" "CREATE TRIGGER T1 BEFORE INSERT ON EMPLOYEES BEGIN NULL; END;"
      ("CREATE TRIGGER T1 BEFORE INSERT" : String).data
      ("EMPLOYEES BEGIN NULL; END;" : String).data (by decide)).2.1,
    by decide⟩

theorem strAppend_assoc (a b c : String) : a ++ b ++ c = a ++ (b ++ c) := by
  cases a with | mk x => ?_
  cases b with | mk y => ?_
  cases c with | mk z => ?_
  show String.mk (x ++ y ++ z) = String.mk (x ++ (y ++ z))
  rw [List.append_assoc]

theorem splitTrigGo_ne_nil :
    ∀ (fuel : Nat) (acc l : List Char), splitTrigGo fuel acc l ≠ [] := by
  intro fuel
  induction fuel with
  | zero => intro acc l; simp [splitTrigGo]
  | succ fuel ih =>
    intro acc l
    cases l with
    | nil => simp [splitTrigGo]
    | cons c rest =>
      rw [splitTrigGo]
      by_cases hp : trigKw.isPrefixOf (c :: rest)
      · rw [if_pos hp]; simp
      · rw [if_neg hp]; exact ih _ _

/-- With sufficient fuel, re-joining the fragments with the separator
recovers the input: the split loses no text. -/
theorem splitTrigGo_join :
    ∀ (fuel : Nat) (acc l : List Char), l.length < fuel →
      joinWith trigKw (splitTrigGo fuel acc l) = acc.reverse ++ l := by
  intro fuel
  induction fuel with
  | zero => intro acc l h; omega
  | succ fuel ih =>
    intro acc l hlen
    cases l with
    | nil => simp [splitTrigGo, joinWith]
    | cons c rest =>
      rw [splitTrigGo]
      by_cases hp : trigKw.isPrefixOf (c :: rest)
      · rw [if_pos hp]
        obtain ⟨t2, ht⟩ : trigKw <+: (c :: rest) := List.isPrefixOf_iff_prefix.mp hp
        obtain ⟨x, xs, hx⟩ :=
          List.exists_cons_of_ne_nil (splitTrigGo_ne_nil fuel [] ((c :: rest).drop 13))
        rw [hx, joinWith_cons_cons, ← hx]
        have hdrop : (c :: rest).drop 13 = t2 := by
          rw [← ht]
          exact List.drop_left trigKw t2
        have hlt : ((c :: rest).drop 13).length < fuel := by
          simp only [List.length_drop]
          simp only [List.length_cons] at hlen ⊢
          omega
        rw [ih [] _ hlt]
        rw [hdrop, ← ht]
        simp
      · rw [if_neg hp]
        have hlt : rest.length < fuel := by
          simp only [List.length_cons] at hlen
          omega
        rw [ih (c :: acc) rest hlt]
        simp

/-- Joining the fragments of `splitAlterTrigger` with the separator
recovers the split text. -/
theorem splitAlterTrigger_join (s : String) :
    joinWith trigKw ((splitAlterTrigger s).map String.data) = s.data := by
  unfold splitAlterTrigger
  rw [List.map_map]
  have : (String.data ∘ String.mk) = id := rfl
  rw [this, List.map_id]
  exact splitTrigGo_join _ [] s.data (by omega)

/-- C5 counterexample input: a trigger row with an `ON` clause and one
appended `ALTER TRIGGER` statement. -/
def trigRowC5 : String :=
  "CREATE TRIGGER T1 BEFORE INSERT ON EMP BEGIN NULL; END;\n/\nALTER TRIGGER T1 ENABLE"

/-- C5 counterexample: the fragment produced for the `ALTER TRIGGER`
statement is only right-trimmed and re-prefixed - it is NOT given a block
terminator (its last character is `E`, not `/`), refuting the claim that
each split fragment receives its own terminator. -/
theorem processTriggerRow_alter_without_terminator :
    processTriggerRow "HR" trigRowC5 =
      ["CREATE TRIGGER T1 BEFORE INSERT ON \"HR\".EMP BEGIN NULL; END;\n/",
       "ALTER TRIGGER T1 ENABLE"] ∧
    ((processTriggerRow "HR" trigRowC5).getLastD "").data.getLastD ' ' ≠ '/' := by
  constructor
  · decide
  · decide

/-- C5 (amended): when the `ON` clause is found, the row is split at every
literal `ALTER TRIGGER` occurrence; the first fragment is right-trimmed of
whitespace and slashes and receives a block terminator, while every later
fragment is re-prefixed with `ALTER TRIGGER` and right-trimmed without a
new terminator (a row with no occurrence is the single first fragment).
Joining the split fragments with the separator recovers the fixed-up
text, so no DDL text is lost by the split. -/
theorem processTriggerRow_split_spec (schema row : String)
    (hfound : (triggerOnFix schema (trimString row)).2 = true) :
    processTriggerRow schema row =
      (trimRightSlash
          ((splitAlterTrigger (triggerOnFix schema (trimString row)).1).headD "") ++
        newLine ++ "/") ::
      ((splitAlterTrigger (triggerOnFix schema (trimString row)).1).drop 1).map
        (fun x => "ALTER TRIGGER" ++ trimRightSlash x) ∧
    joinWith trigKw
        ((splitAlterTrigger (triggerOnFix schema (trimString row)).1).map String.data) =
      (triggerOnFix schema (trimString row)).1.data := by
  constructor
  · show (if (triggerOnFix schema (trimString row)).2 = true then
        (trimRightSlash
            ((splitAlterTrigger (triggerOnFix schema (trimString row)).1).headD "") ++
          newLine ++ "/") ::
        ((splitAlterTrigger (triggerOnFix schema (trimString row)).1).drop 1).map
          (fun x => "ALTER TRIGGER" ++ trimRightSlash x)
      else [trimRightSlash (triggerOnFix schema (trimString row)).1 ++ newLine ++ "/"]) = _
    rw [hfound]
    simp
  · exact splitAlterTrigger_join _

theorem processTriggerRow_split_spec_witness :
    (triggerOnFix "HR" (trimString trigRowC5)).2 = true ∧
    (processTriggerRow "HR" trigRowC5 =
      (trimRightSlash
          ((splitAlterTrigger (triggerOnFix "HR" (trimString trigRowC5)).1).headD "") ++
        newLine ++ "/") ::
      ((splitAlterTrigger (triggerOnFix "HR" (trimString trigRowC5)).1).drop 1).map
        (fun x => "ALTER TRIGGER" ++ trimRightSlash x) ∧
    joinWith trigKw
        ((splitAlterTrigger (triggerOnFix "HR" (trimString trigRowC5)).1).map String.data) =
      (triggerOnFix "HR" (trimString trigRowC5)).1.data) :=
  ⟨by decide, processTriggerRow_split_spec "HR" trigRowC5 (by decide)⟩

theorem dropWhile_head_false {p : Char → Bool} {l : List Char}
    (h : l.dropWhile p = l) (hne : l ≠ []) :
    ∃ x t, l = x :: t ∧ p x = false := by
  cases l with
  | nil => exact absurd rfl hne
  | cons x t =>
    by_cases hp : p x = true
    · exfalso
      rw [List.dropWhile_cons, if_pos hp] at h
      have hle := (List.dropWhile_sublist (l := t) p).length_le
      rw [h] at hle
      simp at hle
    · exact ⟨x, t, rfl, by simpa using hp⟩

theorem trimLineL_append (u v : List Char) (hv : trimLineL v = v) (hne : v ≠ []) :
    trimLineL (u ++ v) = u ++ v := by
  have hv' : v.reverse.dropWhile isWsChar = v.reverse := by
    have h2 := congrArg List.reverse hv
    simpa [trimLineL] using h2
  have hrne : v.reverse ≠ [] := by simpa using hne
  obtain ⟨x, t, hxt, hpx⟩ := dropWhile_head_false hv' hrne
  have hv2 : v = t.reverse ++ [x] := by
    rw [← List.reverse_reverse v, hxt]
    simp
  unfold trimLineL
  rw [List.reverse_append, hxt, List.cons_append, List.dropWhile_cons, if_neg (by simp [hpx])]
  rw [← List.cons_append, ← hxt, ← List.reverse_append]
  simp

theorem trimLineL_idem (l : List Char) : trimLineL (trimLineL l) = trimLineL l := by
  unfold trimLineL
  rw [List.reverse_reverse]
  cases h : l.reverse.dropWhile isWsChar with
  | nil => simp
  | cons x t =>
    have hx : isWsChar x = false := by
      have h0 := List.head?_dropWhile_not isWsChar l.reverse
      rw [h] at h0
      simpa using h0
    rw [List.dropWhile_cons, if_neg (by simp [hx])]

theorem trimLine_idem (s : String) : trimLine (trimLine s) = trimLine s := by
  cases s with | mk d => ?_
  show String.mk (trimLineL (trimLineL d)) = String.mk (trimLineL d)
  rw [trimLineL_idem]

theorem trimLine_append (x y : String) (hy : trimLine y = y) (hne : y ≠ "") :
    trimLine (x ++ y) = x ++ y := by
  cases x with | mk xd => ?_
  cases y with | mk yd => ?_
  have hyd : trimLineL yd = yd := congrArg String.data hy
  have hne' : yd ≠ [] := fun hh => hne (by rw [hh])
  show String.mk (trimLineL (xd ++ yd)) = String.mk (xd ++ yd)
  rw [trimLineL_append xd yd hyd hne']

theorem joinFrags_cons (x : String) (l : List String) (h : l ≠ []) :
    joinFrags (x :: l) = x ++ dblSpace ++ joinFrags l := by
  obtain ⟨y, t, rfl⟩ := List.exists_cons_of_ne_nil h
  rfl

theorem joinFrags_append (l₁ l₂ : List String) (h₁ : l₁ ≠ []) (h₂ : l₂ ≠ []) :
    joinFrags (l₁ ++ l₂) = joinFrags l₁ ++ dblSpace ++ joinFrags l₂ := by
  induction l₁ with
  | nil => exact absurd rfl h₁
  | cons x t ih =>
    cases t with
    | nil =>
      rw [List.singleton_append, joinFrags_cons x l₂ h₂]
      rfl
    | cons y u =>
      rw [List.cons_append, joinFrags_cons x ((y :: u) ++ l₂) (by simp),
        joinFrags_cons x (y :: u) (by simp), ih (by simp)]
      simp [strAppend_assoc]

/-- Environment where a table has empty facets except a single trigger. -/
def dbC6 : Db :=
  { emptyDb with
    getDdl := fun _ _ _ => .ok (some "CREATE TABLE T6 (X NUMBER)")
  , triggerRows := fun _ _ => .ok ["CREATE TRIGGER TG BEFORE INSERT ON T6 BEGIN NULL; END;"] }

/-- C6 counterexample: with empty index/comment facets the assembled
document contains four consecutive blank-line separators between the
CREATE statement and the trigger, not a single separator: empty fragments
are appended, not dropped. -/
theorem exportDDL_empty_fragments_not_dropped :
    (ExportDDL dbC6 "HR" "T6" "TABLE" false false).1 =
      "CREATE TABLE T6 (X NUMBER)" ++ dblSpace ++ dblSpace ++ dblSpace ++ dblSpace ++
        "CREATE TRIGGER TG BEFORE INSERT ON \"HR\".T6 BEGIN NULL; END;\n/" ∧
    (ExportDDL dbC6 "HR" "T6" "TABLE" false false).1 ≠
      "CREATE TABLE T6 (X NUMBER)" ++ dblSpace ++
        "CREATE TRIGGER TG BEFORE INSERT ON \"HR\".T6 BEGIN NULL; END;\n/" := by
  constructor
  · decide
  · decide

/-- C6 (amended): `exportTableView` joins the facet fragments in order
with the fixed blank-line separator after right-trimming each one, but
empty fragments are NOT dropped: every facet contributes an element of
the joined list, so an empty facet yields consecutive separators. -/
theorem exportTableView_keeps_empty_fragments (db : Db) (schema name t c0 : String)
    (hddl : ObjDDL db schema name "TABLE" = .ok t)
    (hs : splitAlter t = [c0]) :
    (exportTableView db schema name "TABLE").1 =
      joinFrags [trimLine c0,
        trimLine (exVal (ObjIndices db schema name "TABLE")),
        trimLine (exVal (ObjComments db schema name "TABLE")),
        trimLine (exVal (ColComments db schema name "TABLE")),
        trimLine (exVal (ObjTriggers db schema name))] ∧
    ∀ x1 x2 x3 x4 x5 : String,
      joinFrags [x1, x2, x3, x4, x5] =
        x1 ++ dblSpace ++ x2 ++ dblSpace ++ x3 ++ dblSpace ++ x4 ++ dblSpace ++ x5 := by
  constructor
  · have hfr := tvFrags_eq db schema name "TABLE" t c0 [] hs
    simp [typeTable, typeMaterializedView] at hfr
    simp [exportTableView, hddl, hfr]
  · intro x1 x2 x3 x4 x5
    simp [joinFrags, strAppend_assoc]

theorem exportTableView_keeps_empty_fragments_witness :
    (ObjDDL dbC6 "HR" "T6" "TABLE" = .ok "CREATE TABLE T6 (X NUMBER)" ∧
      splitAlter "CREATE TABLE T6 (X NUMBER)" = ["CREATE TABLE T6 (X NUMBER)"]) ∧
    (exportTableView dbC6 "HR" "T6" "TABLE").1 =
      joinFrags [trimLine "CREATE TABLE T6 (X NUMBER)",
        trimLine (exVal (ObjIndices dbC6 "HR" "T6" "TABLE")),
        trimLine (exVal (ObjComments dbC6 "HR" "T6" "TABLE")),
        trimLine (exVal (ColComments dbC6 "HR" "T6" "TABLE")),
        trimLine (exVal (ObjTriggers dbC6 "HR" "T6"))] ∧
    joinFrags ["A", "", "B", "", "C"] =
      "A" ++ dblSpace ++ "" ++ dblSpace ++ "B" ++ dblSpace ++ "" ++ dblSpace ++ "C" :=
  ⟨⟨rfl, by decide⟩,
    (exportTableView_keeps_empty_fragments dbC6 "HR" "T6"
      "CREATE TABLE T6 (X NUMBER)" "CREATE TABLE T6 (X NUMBER)" rfl (by decide)).1,
    (exportTableView_keeps_empty_fragments dbC6 "HR" "T6"
      "CREATE TABLE T6 (X NUMBER)" "CREATE TABLE T6 (X NUMBER)" rfl (by decide)).2
      "A" "" "B" "" "C"⟩

/-- Behaviour of `ExportDDL` for a table whose `exportTableView` step succeeded:
needed grants first, the table-view document in the middle, granted
privileges last, joined with the blank-line separator. -/
theorem exportDDL_tv_ok (db : Db) (schema name inner ng gg : String)
    (hTV : exportTableView db schema name "TABLE" = (inner, none))
    (hng : ObjNeededPrivs db schema name "TABLE" = .ok ng)
    (hgg : ObjGrantedPrivs db schema name "TABLE" = .ok gg) :
    ExportDDL db schema name "TABLE" true true =
      (joinFrags [trimLine ng, trimLine inner, trimLine gg], none) := by
  simp [ExportDDL, hTV, hng, hgg, appendLine, exVal, errOf,
    typeTable, typeView, typeMaterializedView]

/-- C8: for a table whose DDL splits into a CREATE statement and `ALTER`
fragments, with every facet present, the assembled document is exactly:
needed grants, CREATE statement, index DDL, lexicographically sorted
`ALTER` fragments, object comment, column comments, triggers, granted
privileges - joined in that order by the blank-line separator. -/
theorem exportDDL_order (db : Db) (schema name t c0 idx oc cc tg ng gg : String)
    (alters : List String)
    (hddl : ObjDDL db schema name "TABLE" = .ok t)
    (hs : splitAlter t = c0 :: alters)
    (hne : alters ≠ [])
    (hidx : ObjIndices db schema name "TABLE" = .ok idx)
    (hoc : ObjComments db schema name "TABLE" = .ok oc)
    (hcc : ColComments db schema name "TABLE" = .ok cc)
    (htg : ObjTriggers db schema name = .ok tg)
    (hng : ObjNeededPrivs db schema name "TABLE" = .ok ng)
    (hgg : ObjGrantedPrivs db schema name "TABLE" = .ok gg)
    (htgne : trimLine tg ≠ "") :
    ExportDDL db schema name "TABLE" true true =
      (joinFrags ([trimLine ng, trimLine c0, trimLine idx] ++
        ((sortStrings alters).map fun cmd => trimLine ("ALTER " ++ cmd)) ++
        [trimLine oc, trimLine cc, trimLine tg, trimLine gg]), none) := by
  have hfr2 : tvFrags db schema name "TABLE" t =
      ([trimLine c0, trimLine idx] ++
        ((sortStrings alters).map fun cmd => trimLine ("ALTER " ++ cmd)) ++
        [trimLine oc, trimLine cc]) ++ [trimLine tg] := by
    simp [tvFrags_eq db schema name "TABLE" t c0 alters hs, typeTable,
      typeMaterializedView, hne, hidx, hoc, hcc, htg, exVal]
  have hTV : exportTableView db schema name "TABLE" =
      (joinFrags (tvFrags db schema name "TABLE" t), none) := by
    simp [exportTableView, hddl, htg, errOf]
  rw [exportDDL_tv_ok db schema name _ ng gg hTV hng hgg, hfr2]
  rw [joinFrags_append _ [trimLine tg] (by simp) (by simp)]
  rw [show joinFrags [trimLine tg] = trimLine tg from rfl]
  rw [trimLine_append _ _ (trimLine_idem tg) htgne]
  have hR : [trimLine ng, trimLine c0, trimLine idx] ++
      ((sortStrings alters).map fun cmd => trimLine ("ALTER " ++ cmd)) ++
      [trimLine oc, trimLine cc, trimLine tg, trimLine gg] =
      [trimLine ng] ++
        ((([trimLine c0, trimLine idx] ++
          ((sortStrings alters).map fun cmd => trimLine ("ALTER " ++ cmd)) ++
          [trimLine oc, trimLine cc]) ++ [trimLine tg]) ++ [trimLine gg]) := by
    simp
  rw [hR]
  rw [joinFrags_append [trimLine ng] _ (by simp) (by simp)]
  rw [joinFrags_append _ [trimLine gg] (by simp) (by simp)]
  rw [joinFrags_append _ [trimLine tg] (by simp) (by simp)]
  simp [joinFrags, strAppend_assoc]

/-- A table environment with every facet populated, the `ALTER` fragments
fetched out of order, and an unqualified trigger `ON` clause. -/
def dbC8 : Db :=
  { getDdl := fun _ _ _ => .ok (some "CREATE TABLE T\nALTER B\nALTER A")
  , triggerRows := fun _ _ =>
      .ok ["CREATE TRIGGER TG BEFORE INSERT ON T BEGIN NULL; END;\n/"]
  , indexRows := fun _ _ => .ok ["CREATE INDEX I ON T (X)"]
  , tabCommentRows := fun _ _ => .ok ["COMMENT ON TABLE T IS 'c'"]
  , mviewCommentRows := fun _ _ => .ok []
  , colCommentRows := fun _ _ => .ok ["COMMENT ON COLUMN T.X IS 'x'"]
  , grantedRows := fun _ _ => .ok ["GRANT SELECT ON T TO U"]
  , neededRows := fun _ _ => .ok ["GRANT SELECT ON D TO HR"] }

theorem exportDDL_order_witness :
    (ObjDDL dbC8 "HR" "T" "TABLE" = .ok "CREATE TABLE T\nALTER B\nALTER A" ∧
      splitAlter "CREATE TABLE T\nALTER B\nALTER A" = "CREATE TABLE T" :: ["B", "A"] ∧
      (["B", "A"] : List String) ≠ [] ∧
      ObjIndices dbC8 "HR" "T" "TABLE" = .ok "CREATE INDEX I ON T (X)" ∧
      ObjComments dbC8 "HR" "T" "TABLE" = .ok "COMMENT ON TABLE T IS 'c'" ∧
      ColComments dbC8 "HR" "T" "TABLE" = .ok "COMMENT ON COLUMN T.X IS 'x'" ∧
      ObjTriggers dbC8 "HR" "T" =
        .ok "CREATE TRIGGER TG BEFORE INSERT ON \"HR\".T BEGIN NULL; END;\n/" ∧
      ObjNeededPrivs dbC8 "HR" "T" "TABLE" = .ok "GRANT SELECT ON D TO HR" ∧
      ObjGrantedPrivs dbC8 "HR" "T" "TABLE" = .ok "GRANT SELECT ON T TO U" ∧
      trimLine "CREATE TRIGGER TG BEFORE INSERT ON \"HR\".T BEGIN NULL; END;\n/" ≠ "") ∧
    ExportDDL dbC8 "HR" "T" "TABLE" true true =
      (joinFrags ([trimLine "GRANT SELECT ON D TO HR", trimLine "CREATE TABLE T",
        trimLine "CREATE INDEX I ON T (X)"] ++
        ((sortStrings ["B", "A"]).map fun cmd => trimLine ("ALTER " ++ cmd)) ++
        [trimLine "COMMENT ON TABLE T IS 'c'", trimLine "COMMENT ON COLUMN T.X IS 'x'",
         trimLine "CREATE TRIGGER TG BEFORE INSERT ON \"HR\".T BEGIN NULL; END;\n/",
         trimLine "GRANT SELECT ON T TO U"]), none) :=
  ⟨⟨rfl, by decide, by decide, rfl, rfl, rfl, rfl, rfl, rfl, by decide⟩,
    exportDDL_order dbC8 "HR" "T" "CREATE TABLE T\nALTER B\nALTER A" "CREATE TABLE T"
      "CREATE INDEX I ON T (X)" "COMMENT ON TABLE T IS 'c'" "COMMENT ON COLUMN T.X IS 'x'"
      "CREATE TRIGGER TG BEFORE INSERT ON \"HR\".T BEGIN NULL; END;\n/"
      "GRANT SELECT ON D TO HR" "GRANT SELECT ON T TO U" ["B", "A"]
      rfl (by decide) (by decide) rfl rfl rfl rfl rfl rfl (by decide)⟩

end Oradex
